import Mathlib

/-!
Shallow embedding of the struct/type disassembly pipeline of the `dvm`
Move disassembler (`src/compiler/src/mv/disassembler/`): generic-parameter
naming (`generics.rs`), import/alias resolution (`imports.rs`), recursive
type-signature decoding and struct rendering (`structs.rs`), and the
module-level renderer (`module.rs`, `mod.rs`).

Modelling conventions:
- machine indices (`u16` table indices) are `Nat`; the tables are Lean lists
  and an index lookup is `List.get?`;
- a Rust panic (out-of-bounds slice index) is modelled as `Option.none`
  propagating through the decoding phase; all rendering ("encode") functions
  operate on already-decoded values and are total, exactly as in the source
  where `encode` only reads fields extracted beforehand;
- account addresses are represented by their hex strings (only equality and
  textual rendering of addresses are used by this pipeline);
- the random `u16` drawn in the generic-name fallback is passed in as an
  explicit `rng` argument.
-/

namespace Dvm

/-- `Kind` from the binary format: generic-kind constraint of one parameter. -/
inductive Kind where
  | All
  | Resource
  | Copyable
deriving DecidableEq, Repr

/-- Account address, represented by its hex string. -/
abbrev AccountAddress := String

/-- `ModuleHandle`: identifier-pool index of the name and address-pool index. -/
structure ModuleHandle where
  address : Nat
  name : Nat
deriving DecidableEq, Repr

/-- `StructHandle`: owning module handle index, name index, nominal-resource
flag, and the ordered generic-kind constraints. -/
structure StructHandle where
  module : Nat
  name : Nat
  is_nominal_resource : Bool
  type_parameters : List Kind
deriving DecidableEq, Repr

/-- `SignatureToken`: the recursive binary type signature. -/
inductive SignatureToken where
  | Bool
  | U8
  | U64
  | U128
  | Address
  | Signer
  | Vector (t : SignatureToken)
  | Struct (idx : Nat)
  | StructInstantiation (idx : Nat) (args : List SignatureToken)
  | Reference (t : SignatureToken)
  | MutableReference (t : SignatureToken)
  | TypeParameter (i : Nat)
deriving Repr

/-- `FieldDefinition`: field-name identifier index and type signature. -/
structure FieldDefinition where
  name : Nat
  signature : SignatureToken
deriving Repr

/-- `StructFieldInformation`: a struct's field layout. -/
inductive StructFieldInformation where
  | Native
  | Declared (fields : List FieldDefinition)
deriving Repr

/-- `field_information == StructFieldInformation::Native` from the source
(`structs.rs` line 40): true exactly on the `Native` constructor. -/
def StructFieldInformation.isNative : StructFieldInformation → Bool
  | .Native => true
  | .Declared _ => false

/-- `StructDefinition`: struct-handle index and field layout. -/
structure StructDefinition where
  struct_handle : Nat
  field_information : StructFieldInformation
deriving Repr

/-- `CompiledModuleMut`: the tables of one deserialized module that the
struct-disassembly pipeline reads. -/
structure CompiledModuleMut where
  module_handles : List ModuleHandle
  struct_handles : List StructHandle
  identifiers : List String
  address_identifiers : List AccountAddress
  struct_defs : List StructDefinition
  self_module_handle_idx : Nat
deriving Repr

/-- Indentation helper: `{s:width$}` with `s = ""` in the Rust format strings. -/
def spaces (n : Nat) : String := String.mk (List.replicate n ' ')

/-- `INDENT` from `mod.rs`. -/
def INDENT : Nat := 4

/-- Option-propagating map, mirroring `iter().map(...).collect()` where the
body may panic: the whole traversal is `none` as soon as one element is. -/
def mapOpt (f : α → Option β) : List α → Option (List β)
  | [] => some []
  | x :: xs =>
    match f x with
    | none => none
    | some y => (mapOpt f xs).map (y :: ·)

/-! ## generics.rs -/

/-- `GENERICS_PREFIX` from `generics.rs`: the fixed ordered candidate list of
22 short names (renamed here to avoid a keyword fragment). -/
def GENERIC_CANDIDATES : List String :=
  ["T", "G", "V", "A", "B", "C", "D", "F", "H", "J", "K", "L", "M", "N", "P",
   "Q", "R", "S", "W", "X", "Y", "Z"]

/-- `GenericPrefix` from `generics.rs` (renamed `GenericPfx`):
either one of the fixed candidates, or the random fallback. -/
inductive GenericPfx where
  | SimplePfx (s : String)
  | Generated (n : Nat)
deriving DecidableEq, Repr

/-- `Generics`: the module-wide shared generic-name base (the `Rc` sharing of
the source is immaterial to values). -/
structure Generics where
  base : GenericPfx
deriving DecidableEq, Repr

/-- `Generics::new`: pick the first candidate not present in the identifier
pool; if all 22 are taken, fall back to a random 16-bit integer, here supplied
as the explicit `rng` argument. -/
def Generics.new (module : CompiledModuleMut) (rng : Nat) : Generics :=
  match GENERIC_CANDIDATES.find? (fun p => !(module.identifiers.contains p)) with
  | some p => ⟨GenericPfx.SimplePfx p⟩
  | none => ⟨GenericPfx.Generated (rng % 65536)⟩

/-- One decoded generic parameter (`Generic` in `generics.rs`). -/
structure Generic where
  pfx : Generics
  index : Nat
  kind : Kind
deriving DecidableEq, Repr

/-- `Generics::create_generic`. -/
def Generics.create_generic (g : Generics) (index : Nat) (kind : Kind) : Generic :=
  { pfx := g, index := index, kind := kind }

/-- `impl Encode for Generics`: the bare base name. -/
def Generics.encode (g : Generics) : String :=
  match g.base with
  | .SimplePfx p => p
  | .Generated p => "TYPE_" ++ toString p

/-- Kind suffix written by `impl Encode for Generic`. -/
def Kind.annot : Kind → String
  | .All => ""
  | .Resource => ": resource"
  | .Copyable => ": copyable"

/-- `impl Encode for Generic`: base, `_i` for `i ≠ 0`, then the kind suffix. -/
def Generic.encode (g : Generic) : String :=
  g.pfx.encode ++ (if g.index ≠ 0 then "_" ++ toString g.index else "") ++ g.kind.annot

/-- `impl Encode for GenericName` (`Generic::as_name`): like `Generic.encode`
but without the kind suffix; used when the parameter occurs inside a type. -/
def Generic.name (g : Generic) : String :=
  g.pfx.encode ++ (if g.index ≠ 0 then "_" ++ toString g.index else "")

/-! ## imports.rs -/

/-- `ImportName`: bare module name or numbered alias. -/
inductive ImportName where
  | Name (s : String)
  | Alias (s : String) (n : Nat)
deriving DecidableEq, Repr

/-- Modelled from the spec: the `Encode` impl for `ImportName` is declared in
a disassembler module file that is absent from the source tree (`structs.rs`
calls `import.encode`); the spec's import-aliasing section dictates the bare
name for `Name` and the name immediately followed by the numeric suffix for
`Alias` (`Foo`, `Foo1`). -/
def ImportName.encode : ImportName → String
  | .Name s => s
  | .Alias s n => s ++ toString n

/-- The import table: outer map keyed by module name, inner map keyed by
address (the source's nested `BTreeMap`s, modelled as association lists;
only keyed lookup, keyed update and size are ever used). -/
abbrev ImportsMap := List (String × List (AccountAddress × ImportName))

/-- Replace the value at a key, keeping its position, or append a new entry:
the association-list counterpart of `BTreeMap` entry insertion. -/
def updAssoc (k : String) (v : List (AccountAddress × ImportName)) :
    ImportsMap → ImportsMap
  | [] => [(k, v)]
  | (k', v') :: rest =>
    if k' = k then (k, v) :: rest else (k', v') :: updAssoc k v rest

/-- The body of the `Imports::new` loop for one non-self handle whose name and
address have already been resolved: `entry(name).or_insert_with(BTreeMap::new)`,
`count = name_map.len()`, then `entry(address).or_insert_with(...)` choosing
`Name` when the group was empty and `Alias(name, count)` otherwise. (The
source's `name_map`, `count` and import-value bindings are inlined:
`(imports.lookup p.1).getD []` is `name_map` and its length is `count`.) -/
def Imports.insertPair (imports : ImportsMap) (p : String × AccountAddress) :
    ImportsMap :=
  match ((imports.lookup p.1).getD []).lookup p.2 with
  | some _ => imports
  | none =>
    updAssoc p.1
      ((imports.lookup p.1).getD [] ++
        [(p.2,
          if ((imports.lookup p.1).getD []).length = 0 then ImportName.Name p.1
          else ImportName.Alias p.1 (((imports.lookup p.1).getD []).length))])
      imports

/-- Resolve one module handle's name and address through the pools
(`module.identifiers[...]`, `module.address_identifiers[...]`); `none` models
the panic on an out-of-range index. -/
def resolveHandle (module : CompiledModuleMut) (h : ModuleHandle) :
    Option (String × AccountAddress) :=
  match module.identifiers.get? h.name, module.address_identifiers.get? h.address with
  | some n, some a => some (n, a)
  | _, _ => none

/-- The ordered list of resolved (name, address) pairs of the non-self module
handles, in table order; `none` if any pool index is out of range. -/
def Imports.pairsAux (module : CompiledModuleMut) :
    List (Nat × ModuleHandle) → Option (List (String × AccountAddress))
  | [] => some []
  | (i, h) :: rest =>
    if module.self_module_handle_idx = i then Imports.pairsAux module rest
    else
      match resolveHandle module h with
      | none => none
      | some p => (Imports.pairsAux module rest).map (p :: ·)

/-- Resolved non-self (name, address) pairs of a module, in handle-table order. -/
def Imports.pairs (module : CompiledModuleMut) :
    Option (List (String × AccountAddress)) :=
  Imports.pairsAux module module.module_handles.enum

/-- One iteration of the `Imports::new` loop at handle index `ih.1`: skip the
self handle, otherwise resolve and register; a panicked state stays panicked. -/
def Imports.step (module : CompiledModuleMut) (acc : Option ImportsMap)
    (ih : Nat × ModuleHandle) : Option ImportsMap :=
  match acc with
  | none => none
  | some imports =>
    if module.self_module_handle_idx = ih.1 then some imports
    else
      match resolveHandle module ih.2 with
      | none => none
      | some p => some (Imports.insertPair imports p)

/-- `Imports::new`: iterate the module-handle table in order, skip the self
handle, and register each resolved (name, address) pair; `none` models the
panic on an out-of-range name or address index. -/
def Imports.new (module : CompiledModuleMut) : Option ImportsMap :=
  module.module_handles.enum.foldl (Imports.step module) (some [])

/-- `Imports::get_import`: pure keyed lookup. -/
def Imports.get_import (imports : ImportsMap) (address : AccountAddress)
    (name : String) : Option ImportName :=
  (imports.lookup name).bind (fun m => m.lookup address)

/-! ## structs.rs -/

/-- `FullStructName`: struct name plus optional import qualifier (the source
field `import` is a Lean keyword, renamed `imp`). -/
structure FullStructName where
  name : String
  imp : Option ImportName
deriving Repr

/-- `impl Encode for FullStructName`: `Import::` qualifier when present. -/
def FullStructName.encode (n : FullStructName) : String :=
  (match n.imp with
   | some i => ImportName.encode i ++ "::"
   | none => "") ++ n.name

/-- `FType`: the decoded, renderable type expression. -/
inductive FType where
  | Generic (g : Generic)
  | Primitive (s : String)
  | Ref (t : FType)
  | RefMut (t : FType)
  | Vec (t : FType)
  | Struct (n : FullStructName)
  | StructInst (n : FullStructName) (args : List FType)
deriving Repr

mutual

/-- `impl Encode for FType`. -/
def FType.encode : FType → String
  | .Primitive name => name
  | .Generic type_param => type_param.name
  | .Ref t => "&" ++ FType.encode t
  | .RefMut t => "&mut " ++ FType.encode t
  | .Vec t => "vector<" ++ FType.encode t ++ ">"
  | .Struct n => n.encode
  | .StructInst n generics =>
    n.encode ++
      (if generics.isEmpty then ""
       else "<" ++ FType.encodeList generics ++ ">")

/-- The `", "`-separated argument list written by `FType::encode` for a
non-empty instantiation. -/
def FType.encodeList : List FType → String
  | [] => ""
  | [t] => FType.encode t
  | t :: t' :: ts => FType.encode t ++ ", " ++ FType.encodeList (t' :: ts)

end

/-- `StructDef::extract_struct_name`: resolve a struct-handle index to the
owning module and struct name, and attach the import token when one exists;
`none` models the panic on any out-of-range index. -/
def extract_struct_name (module : CompiledModuleMut) (struct_index : Nat)
    (imports : ImportsMap) : Option FullStructName :=
  match module.struct_handles.get? struct_index with
  | none => none
  | some handler =>
    match module.module_handles.get? handler.module with
    | none => none
    | some module_handler =>
      match module.identifiers.get? module_handler.name,
            module.address_identifiers.get? module_handler.address,
            module.identifiers.get? handler.name with
      | some module_name, some address, some type_name =>
        some { name := type_name
               imp := Imports.get_import imports address module_name }
      | _, _, _ => none

mutual

/-- `StructDef::extract_type_signature`: recursive decoding of one signature
token in the context of the current struct's own parameter list; `none`
models the panic on any out-of-range index. -/
def extract_type_signature (module : CompiledModuleMut) (imports : ImportsMap)
    (type_params : List Generic) : SignatureToken → Option FType
  | .U8 => some (.Primitive "u8")
  | .Bool => some (.Primitive "bool")
  | .U64 => some (.Primitive "u64")
  | .U128 => some (.Primitive "u128")
  | .Address => some (.Primitive "address")
  | .Signer => some (.Primitive "signer")
  | .Vector sign =>
    (extract_type_signature module imports type_params sign).map .Vec
  | .Struct struct_index =>
    (extract_struct_name module struct_index imports).map .Struct
  | .StructInstantiation struct_index typed =>
    match extract_struct_name module struct_index imports with
    | none => none
    | some n =>
      (extract_type_list module imports type_params typed).map (.StructInst n)
  | .Reference sign =>
    (extract_type_signature module imports type_params sign).map .Ref
  | .MutableReference sign =>
    (extract_type_signature module imports type_params sign).map .RefMut
  | .TypeParameter index =>
    (type_params.get? index).map .Generic

/-- The element-wise decoding of an instantiation's argument list. -/
def extract_type_list (module : CompiledModuleMut) (imports : ImportsMap)
    (type_params : List Generic) : List SignatureToken → Option (List FType)
  | [] => some []
  | t :: ts =>
    match extract_type_signature module imports type_params t with
    | none => none
    | some ft => (extract_type_list module imports type_params ts).map (ft :: ·)

end

/-- A decoded field (`Field` in `structs.rs`). -/
structure Field where
  name : String
  f_type : FType
deriving Repr

/-- `impl Encode for Field`. -/
def Field.encode (f : Field) (indent : Nat) : String :=
  spaces indent ++ f.name ++ ": " ++ f.f_type.encode

/-- `StructDef::extract_fields`: decode the declared field list (empty for
`Native`); `none` models the panic on any out-of-range index. -/
def extract_fields (module : CompiledModuleMut) (info : StructFieldInformation)
    (imports : ImportsMap) (type_params : List Generic) : Option (List Field) :=
  match info with
  | .Declared fields =>
    mapOpt
      (fun fd =>
        match module.identifiers.get? fd.name,
              extract_type_signature module imports type_params fd.signature with
        | some n, some t => some { name := n, f_type := t }
        | _, _ => none)
      fields
  | .Native => some []

/-- The decoded struct declaration (`StructDef` in `structs.rs`). -/
structure StructDef where
  is_nominal_resource : Bool
  is_native : Bool
  name : String
  type_params : List Generic
  fields : List Field
deriving Repr

/-- `StructDef::new`: resolve the handle, decode name, generic parameters and
fields; `none` models the panic on any out-of-range index. -/
def StructDef.new (dfn : StructDefinition) (module : CompiledModuleMut)
    (generic : Generics) (imports : ImportsMap) : Option StructDef :=
  match module.struct_handles.get? dfn.struct_handle with
  | none => none
  | some handler =>
    match module.identifiers.get? handler.name with
    | none => none
    | some name =>
      let type_params :=
        handler.type_parameters.enum.map
          (fun ik => generic.create_generic ik.1 ik.2)
      (extract_fields module dfn.field_information imports type_params).map
        (fun fields =>
          { is_nominal_resource := handler.is_nominal_resource
            is_native := dfn.field_information.isNative
            name := name
            type_params := type_params
            fields := fields })

/-- The `nominal_name` selection at the head of `impl Encode for StructDef`:
the resource flag is tested first, the native layout second. -/
def StructDef.nominal_name (sd : StructDef) : String :=
  if sd.is_nominal_resource then "resource struct"
  else if sd.is_native then "native struct"
  else "struct"

/-- `write_type_parameters` inside `StructDef::encode`: `<...>` with `", "`
separators, empty when there are no parameters. -/
def write_type_parameters (type_params : List Generic) : String :=
  if type_params.isEmpty then ""
  else "<" ++ String.intercalate ", " (type_params.map Generic.encode) ++ ">"

/-- The declared-field block body: each field at `indent + INDENT`, all but
the last followed by `",\n"`, the last by `"\n"`. -/
def encodeFields (indent : Nat) : List Field → String
  | [] => ""
  | [f] => f.encode (indent + INDENT) ++ "\n"
  | f :: f' :: fs => f.encode (indent + INDENT) ++ ",\n" ++ encodeFields indent (f' :: fs)

/-- `impl Encode for StructDef`: header with keyword, name and generic
parameters; a native struct ends with `";\n"`, a declared one carries a
brace-delimited field block whose closing brace is not followed by a newline. -/
def StructDef.encode (sd : StructDef) (indent : Nat) : String :=
  if sd.is_native then
    spaces indent ++ sd.nominal_name ++ " " ++ sd.name ++
      write_type_parameters sd.type_params ++ ";\n"
  else
    spaces indent ++ sd.nominal_name ++ " " ++ sd.name ++
      write_type_parameters sd.type_params ++ " \x7b\n" ++
      encodeFields indent sd.fields ++
      spaces indent ++ "\x7d"

/-! ## module.rs and mod.rs -/

/-- The decoded module (`Module` in `module.rs`; named `ModuleD` because
`Module` is taken by Mathlib). -/
structure ModuleD where
  address : Option AccountAddress
  name : String
  structs : List StructDef
deriving Repr

/-- `CompiledModule::self_id` (external library behaviour): the self handle's
address and name; `none` models an unresolvable self handle. -/
def self_id (module : CompiledModuleMut) : Option (AccountAddress × String) :=
  match module.module_handles.get? module.self_module_handle_idx with
  | none => none
  | some h =>
    match module.address_identifiers.get? h.address,
          module.identifiers.get? h.name with
    | some a, some n => some (a, n)
    | _, _ => none

/-- `Module::new`: decode every struct definition in table order; `none`
models a panic in any struct decode. -/
def ModuleD.new (id : AccountAddress × String) (module : CompiledModuleMut)
    (imports : ImportsMap) (generics : Generics) : Option ModuleD :=
  (mapOpt (fun dfn => StructDef.new dfn module generics imports)
      module.struct_defs).map
    (fun structs => { address := some id.1, name := id.2, structs := structs })

/-- The struct-declaration loop of `Module::write`: each declaration's
encoding at indent `INDENT` followed by exactly one `writeln!(w, "")`. -/
def writeStructs : List StructDef → String
  | [] => ""
  | s :: rest => s.encode INDENT ++ "\n" ++ writeStructs rest

/-- `impl Encode for Module` (`Module::write`): the optional address line
(with its trailing space), the module line, the struct loop, and the closing
braces. -/
def ModuleD.write (md : ModuleD) : String :=
  (match md.address with
   | some a => "address 0x" ++ a ++ " \x7b \n"
   | none => "") ++
  "module " ++ md.name ++ " \x7b\n" ++
  writeStructs md.structs ++
  "\x7d\n" ++
  (match md.address with
   | some _ => "\x7d\n"
   | none => "")

/-- The decoding phase of `disasm` (everything before any write): `self_id`,
`Imports::new`, `Generics::new`, `Unit::new`/`Module::new`; `none` models a
panic anywhere in decoding. -/
def decode (module : CompiledModuleMut) (rng : Nat) : Option ModuleD :=
  match self_id module with
  | none => none
  | some id =>
    match Imports.new module with
    | none => none
    | some imports =>
      ModuleD.new id module imports (Generics.new module rng)

/-- `disasm` on an already-deserialized module: decode, then render. -/
def disasm (module : CompiledModuleMut) (rng : Nat) : Option String :=
  (decode module rng).map ModuleD.write

/-- `disasm` observed through the caller's writer: given the writer's prior
contents `w0`, the final writer contents and a success flag. All decoding
happens before the first write, so a decode panic leaves the writer untouched
and a success appends the complete render in one piece. -/
def disasmW (module : CompiledModuleMut) (rng : Nat) (w0 : String) :
    String × Bool :=
  match decode module rng with
  | none => (w0, false)
  | some md => (w0 ++ md.write, true)

/-! ## Concrete modules used by counterexamples and witnesses -/

/-- A module whose only struct has a field typed by struct-handle index 99
while the struct-handle table has a single entry. -/
def c1Module : CompiledModuleMut :=
  { module_handles := [⟨0, 0⟩]
    struct_handles := [⟨0, 1, false, []⟩]
    identifiers := ["M", "S", "f"]
    address_identifiers := ["00"]
    struct_defs := [⟨0, .Declared [⟨2, .Struct 99⟩]⟩]
    self_module_handle_idx := 0 }

/-- A module whose only struct has a field referencing generic parameter 5
while its struct declares no generic parameters. -/
def c1WitnessModule : CompiledModuleMut :=
  { module_handles := [⟨0, 0⟩]
    struct_handles := [⟨0, 1, false, []⟩]
    identifiers := ["M", "S", "f"]
    address_identifiers := ["00"]
    struct_defs := [⟨0, .Declared [⟨2, .TypeParameter 5⟩]⟩]
    self_module_handle_idx := 0 }

/-- A module whose only struct has the Native field layout and the
nominal-resource flag set. -/
def c2Module : CompiledModuleMut :=
  { module_handles := [⟨0, 0⟩]
    struct_handles := [⟨0, 1, true, []⟩]
    identifiers := ["M", "S"]
    address_identifiers := ["00"]
    struct_defs := [⟨0, .Native⟩]
    self_module_handle_idx := 0 }

/-- A module whose identifier pool contains the string `T_1`, the display
name the namer gives to generic parameter 1 under the selected base `T`. -/
def c3Module : CompiledModuleMut :=
  { module_handles := [⟨0, 0⟩]
    struct_handles := [⟨0, 0, false, [.All, .All]⟩]
    identifiers := ["T_1"]
    address_identifiers := ["00"]
    struct_defs := [⟨0, .Declared []⟩]
    self_module_handle_idx := 0 }

/-- A module with two consecutive Declared structs, each with one field. -/
def c5Module : CompiledModuleMut :=
  { module_handles := [⟨0, 0⟩]
    struct_handles := [⟨0, 1, false, []⟩, ⟨0, 2, false, []⟩]
    identifiers := ["M", "A", "B", "x", "y"]
    address_identifiers := ["00"]
    struct_defs := [⟨0, .Declared [⟨3, .U64⟩]⟩, ⟨1, .Declared [⟨4, .Bool⟩]⟩]
    self_module_handle_idx := 0 }

/-- The exact text the renderer produces for `c5Module`. -/
def c5Text : String :=
  "address 0x00 \x7b \nmodule M \x7b\n    struct A \x7b\n        x: u64\n    \x7d\n    struct B \x7b\n        y: bool\n    \x7d\n\x7d\n\x7d\n"

/-- A module importing a module named `Foo` from two distinct addresses. -/
def c6Module : CompiledModuleMut :=
  { module_handles := [⟨0, 0⟩, ⟨1, 1⟩, ⟨2, 1⟩]
    struct_handles := [⟨0, 2, false, []⟩, ⟨1, 3, false, []⟩, ⟨2, 4, false, []⟩]
    identifiers := ["M", "Foo", "S", "X", "Y"]
    address_identifiers := ["00", "01", "02"]
    struct_defs := [⟨0, .Declared [⟨2, .Struct 1⟩, ⟨3, .Struct 2⟩]⟩]
    self_module_handle_idx := 0 }

/-- The import table `Imports::new` builds for `c6Module`. -/
def c6Imports : ImportsMap := (Imports.new c6Module).getD []

/-- A module whose identifier pool contains `T` but not `G`, with one struct
carrying two generic parameters. -/
def c8Module : CompiledModuleMut :=
  { module_handles := [⟨0, 0⟩]
    struct_handles := [⟨0, 1, false, [.All, .Resource]⟩]
    identifiers := ["M", "T"]
    address_identifiers := ["00"]
    struct_defs := [⟨0, .Declared [⟨1, .TypeParameter 0⟩]⟩]
    self_module_handle_idx := 0 }

/-- A module with a non-self handle (`Foo` at address `01`) referenced by
struct handle 1, used to exercise qualified type rendering. -/
def c9Module : CompiledModuleMut :=
  { module_handles := [⟨0, 0⟩, ⟨1, 1⟩]
    struct_handles := [⟨0, 2, false, []⟩, ⟨1, 3, false, []⟩]
    identifiers := ["M", "Foo", "S", "X"]
    address_identifiers := ["00", "01"]
    struct_defs := [⟨0, .Declared [⟨2, .Struct 1⟩]⟩]
    self_module_handle_idx := 0 }

/-- The import table `Imports::new` builds for `c9Module`. -/
def c9Imports : ImportsMap := (Imports.new c9Module).getD []

/-- A module whose handle table repeats the identical (name, address) pair
(`Foo` at address `01`) in two non-self handles. -/
def c10Module : CompiledModuleMut :=
  { module_handles := [⟨0, 0⟩, ⟨1, 1⟩, ⟨1, 1⟩]
    struct_handles := [⟨0, 2, false, []⟩]
    identifiers := ["M", "Foo", "S"]
    address_identifiers := ["00", "01"]
    struct_defs := []
    self_module_handle_idx := 0 }

/-! ## General helper lemmas -/

theorem mapOpt_eq_none_of_mem {f : α → Option β} {l : List α} {x : α}
    (hx : x ∈ l) (hfx : f x = none) : mapOpt f l = none := by
  induction l with
  | nil => cases hx
  | cons y ys ih =>
    rcases List.mem_cons.mp hx with rfl | hmem
    · simp [mapOpt, hfx]
    · cases hfy : f y with
      | none => simp [mapOpt, hfy]
      | some v => simp [mapOpt, hfy, ih hmem]

theorem mapOpt_length {f : α → Option β} {l : List α} {r : List β}
    (h : mapOpt f l = some r) : r.length = l.length := by
  induction l generalizing r with
  | nil => simp [mapOpt] at h; simp [← h]
  | cons y ys ih =>
    cases hfy : f y with
    | none => simp [mapOpt, hfy] at h
    | some v =>
      simp only [mapOpt, hfy] at h
      cases hrest : mapOpt f ys with
      | none => rw [hrest] at h; simp at h
      | some vs =>
        rw [hrest] at h
        simp only [Option.map_some', Option.some.injEq] at h
        subst h
        simp [ih hrest]

/-- The shape of a successful `StructDef::new`: the decoded flags, name and
generic-parameter list come from the handle and the definition. -/
theorem StructDef.new_eq {dfn : StructDefinition} {m : CompiledModuleMut}
    {g : Generics} {imports : ImportsMap} {handler : StructHandle} {sd : StructDef}
    (hh : m.struct_handles.get? dfn.struct_handle = some handler)
    (hsd : StructDef.new dfn m g imports = some sd) :
    sd.is_nominal_resource = handler.is_nominal_resource
    ∧ sd.is_native = dfn.field_information.isNative
    ∧ sd.type_params
        = handler.type_parameters.enum.map (fun ik => g.create_generic ik.1 ik.2) := by
  unfold StructDef.new at hsd
  rw [hh] at hsd
  simp only at hsd
  cases hn : m.identifiers.get? handler.name with
  | none => rw [hn] at hsd; simp at hsd
  | some name =>
    rw [hn] at hsd
    simp only at hsd
    cases hf : extract_fields m dfn.field_information imports
        (handler.type_parameters.enum.map (fun ik => g.create_generic ik.1 ik.2)) with
    | none => rw [hf] at hsd; simp at hsd
    | some fields =>
      rw [hf] at hsd
      simp only [Option.map_some', Option.some.injEq] at hsd
      subst hsd
      exact ⟨rfl, rfl, rfl⟩

/-- The tail of a struct declaration after the keyword and the space. -/
def StructDef.encodeTail (sd : StructDef) (indent : Nat) : String :=
  if sd.is_native then
    sd.name ++ write_type_parameters sd.type_params ++ ";\n"
  else
    sd.name ++ write_type_parameters sd.type_params ++ " \x7b\n" ++
      encodeFields indent sd.fields ++ spaces indent ++ "\x7d"

theorem StructDef.encode_head (sd : StructDef) (indent : Nat) :
    sd.encode indent = spaces indent ++ sd.nominal_name ++ " " ++ sd.encodeTail indent := by
  unfold StructDef.encode StructDef.encodeTail
  by_cases h : sd.is_native <;> simp [h, String.append_assoc]

theorem writeStructs_append (l1 l2 : List StructDef) :
    writeStructs (l1 ++ l2) = writeStructs l1 ++ writeStructs l2 := by
  induction l1 with
  | nil => simp [writeStructs]
  | cons s rest ih => simp [writeStructs, ih, String.append_assoc]

theorem contains_false_not_mem {a : String} {l : List String}
    (h : l.contains a = false) : a ∉ l := by
  induction l with
  | nil => simp
  | cons x xs ih =>
    simp only [List.contains_cons, Bool.or_eq_false_iff] at h
    intro hmem
    rcases List.mem_cons.mp hmem with rfl | hmem2
    · rw [beq_self_eq_true] at h
      exact absurd h.1 (by simp)
    · exact ih h.2 hmem2

theorem encode_declared_last (sd : StructDef) (ind : Nat)
    (hn : sd.is_native = false) :
    (sd.encode ind).data.getLast? = some '\x7d' := by
  simp only [StructDef.encode, hn, Bool.false_eq_true, if_false]
  rw [String.data_append]
  rw [show ("\x7d" : String).data = ['\x7d'] from rfl]
  exact List.getLast?_concat _

/-- The part of `Module::write` emitted before the struct loop. -/
def moduleHeader (md : ModuleD) : String :=
  (match md.address with
   | some a => "address 0x" ++ a ++ " \x7b \n"
   | none => "") ++
  "module " ++ md.name ++ " \x7b\n"

/-- The part of `Module::write` emitted after the struct loop. -/
def moduleFooter (md : ModuleD) : String :=
  "\x7d\n" ++
  (match md.address with
   | some _ => "\x7d\n"
   | none => "")

/-! ## Claim C2 -/

/-- C2 (counterexample): in `c2Module` the only struct has the Native field
layout and the nominal-resource flag set, yet its rendered keyword is
`resource struct`, not `native struct`: in `StructDef::encode` the resource
flag is tested before the native layout, so the claimed precedence of
`native` is false. -/
theorem c2_counterexample :
    (decode c2Module 0).map
        (fun md => md.structs.map (fun s => (s.is_native, s.nominal_name)))
      = some [(true, "resource struct")]
    ∧ disasm c2Module 0
      = some "address 0x00 \x7b \nmodule M \x7b\n    resource struct S;\n\n\x7d\n\x7d\n" :=
  ⟨rfl, rfl⟩

/-- C2 (amended): the resource flag takes precedence in keyword selection:
a struct renders with keyword `resource struct` whenever the is-nominal-resource
flag is set (even for a Native layout, whose declaration still ends with `;`),
`native struct` when the layout is Native and the flag is clear, and `struct`
otherwise; the rendered declaration is the indent, the keyword, a space, and
the rest of the declaration. -/
theorem c2_keyword (m : CompiledModuleMut) (g : Generics) (imp : ImportsMap)
    (d : StructDefinition) (handler : StructHandle) (sd : StructDef) (indent : Nat)
    (hh : m.struct_handles.get? d.struct_handle = some handler)
    (hsd : StructDef.new d m g imp = some sd) :
    sd.nominal_name
        = (if handler.is_nominal_resource then "resource struct"
           else if d.field_information.isNative then "native struct"
           else "struct")
    ∧ sd.encode indent = spaces indent ++ sd.nominal_name ++ " " ++ sd.encodeTail indent := by
  obtain ⟨h1, h2, -⟩ := StructDef.new_eq hh hsd
  refine ⟨?_, StructDef.encode_head sd indent⟩
  rw [StructDef.nominal_name, h1, h2]

/-- C2 (witness): the amended keyword rule evaluated on `c2Module`. -/
theorem c2_keyword_witness :
    StructDef.nominal_name ⟨true, true, "S", [], []⟩ = "resource struct" :=
  (c2_keyword c2Module (Generics.new c2Module 0) ((Imports.new c2Module).getD [])
      ⟨0, .Native⟩ ⟨0, 1, true, []⟩ ⟨true, true, "S", [], []⟩ 0 rfl rfl).1.trans rfl

/-! ## Claim C3 -/

/-- C3 (counterexample): in `c3Module` the identifier pool is `["T_1"]`; the
namer selects base `T` (absent from the pool) and names parameter 1 of the
only struct `T_1`, which is a string of the identifier pool — the claimed
no-collision guarantee fails for suffixed names. -/
theorem c3_counterexample :
    (decode c3Module 0).map
        (fun md => md.structs.map (fun s => s.type_params.map Generic.name))
      = some [["T", "T_1"]]
    ∧ "T_1" ∈ c3Module.identifiers :=
  ⟨rfl, by decide⟩

/-- C3 (amended): when the namer settles on one of the 22 fixed candidates,
only the bare candidate — the display name of parameter index 0 — is
guaranteed absent from the module's identifier pool; suffixed names for
index i > 0 (and random fallback names) carry no such guarantee. -/
theorem c3_amended (m : CompiledModuleMut) (rng : Nat) (p : String) (k : Kind)
    (h : Generics.new m rng = ⟨GenericPfx.SimplePfx p⟩) :
    ((Generics.new m rng).create_generic 0 k).name = p ∧ p ∉ m.identifiers := by
  constructor
  · rw [h]
    simp [Generic.name, Generics.create_generic, Generics.encode, String.append_empty]
  · unfold Generics.new at h
    cases hf : GENERIC_CANDIDATES.find? (fun q => !(m.identifiers.contains q)) with
    | none => rw [hf] at h; simp at h
    | some q =>
      rw [hf] at h
      simp only [Generics.mk.injEq, GenericPfx.SimplePfx.injEq] at h
      subst h
      have hq := List.find?_some hf
      simp only [Bool.not_eq_true'] at hq
      exact contains_false_not_mem hq

/-- C3 (witness): the amended guarantee evaluated on `c3Module`. -/
theorem c3_amended_witness :
    ((Generics.new c3Module 0).create_generic 0 Kind.All).name = "T"
    ∧ "T" ∉ c3Module.identifiers :=
  c3_amended c3Module 0 "T" Kind.All rfl

/-! ## Claim C4 -/

/-- C4: all decoding precedes the first write, so a caller never observes
partial output: when disassembly fails, the writer holds exactly its prior
contents (no rendered text); when it succeeds, the writer holds the prior
contents followed by the complete module render — complete text or a single
error, never both. -/
theorem c4_no_partial_output (m : CompiledModuleMut) (rng : Nat) (w0 : String) :
    ((disasmW m rng w0).2 = false → (disasmW m rng w0).1 = w0)
    ∧ ((disasmW m rng w0).2 = true →
        (disasmW m rng w0).1 = w0 ++ (disasm m rng).getD "") := by
  cases h : decode m rng <;> simp [disasmW, disasm, h]

/-- C4 (witness): the failing module `c1Module` leaves the writer untouched;
the succeeding module `c5Module` appends the complete render. -/
theorem c4_witness :
    (disasmW c1Module 0 "prior").1 = "prior"
    ∧ (disasmW c5Module 0 "prior").1 = "prior" ++ (disasm c5Module 0).getD "" :=
  ⟨(c4_no_partial_output c1Module 0 "prior").1 rfl,
   (c4_no_partial_output c5Module 0 "prior").2 rfl⟩

/-! ## Claim C5 -/

/-- Number of adjacent newline pairs in a character sequence: a rendered text
contains a blank line exactly when two newlines are adjacent. -/
def countBlankPairs : List Char → Nat
  | '\n' :: '\n' :: rest => countBlankPairs ('\n' :: rest) + 1
  | _ :: rest => countBlankPairs rest
  | [] => 0

/-- C5 (counterexample): `c5Module` has two consecutive Declared struct
definitions, yet its full rendered text contains no blank line at all (no
two adjacent newlines anywhere), so there is not "exactly one blank line
between each pair of consecutive struct declarations". -/
theorem c5_counterexample :
    disasm c5Module 0 = some c5Text
    ∧ countBlankPairs c5Text.data = 0 :=
  ⟨rfl, rfl⟩

/-- C5 (amended): the renderer separates consecutive struct declarations by
exactly one newline, not a blank line: each declaration is followed by a
single `\n`, and a Declared struct's rendering ends with its closing brace
(not a newline), so no blank line appears between a Declared struct and the
next declaration. (A Native struct's rendering ends with a newline of its
own, so only Native structs are followed by a blank line, including after the
last struct.) -/
theorem c5_amended (md : ModuleD) (pre post : List StructDef) (a b : StructDef)
    (h : md.structs = pre ++ a :: b :: post) (hn : a.is_native = false) :
    md.write = moduleHeader md ++ (writeStructs pre ++
        (a.encode INDENT ++ "\n" ++ (b.encode INDENT ++ "\n" ++ writeStructs post)))
        ++ moduleFooter md
    ∧ (a.encode INDENT).data.getLast? = some '\x7d' := by
  refine ⟨?_, encode_declared_last a INDENT hn⟩
  rw [ModuleD.write, moduleHeader, moduleFooter, h, writeStructs_append]
  simp [writeStructs, String.append_assoc]

/-- A decoded Declared struct used by the C5 witness. -/
def c5A : StructDef :=
  ⟨false, false, "A", [], [⟨"x", .Primitive "u64"⟩]⟩

/-- A second decoded Declared struct used by the C5 witness. -/
def c5B : StructDef :=
  ⟨false, false, "B", [], [⟨"y", .Primitive "bool"⟩]⟩

/-- The decoded form of `c5Module`. -/
def c5Decoded : ModuleD :=
  { address := some "00", name := "M", structs := [c5A, c5B] }

/-- C5 (witness): the amended separation rule evaluated on the decoded form
of `c5Module`. -/
theorem c5_amended_witness :
    c5Decoded.write = moduleHeader c5Decoded ++ (writeStructs [] ++
        (c5A.encode INDENT ++ "\n" ++ (c5B.encode INDENT ++ "\n" ++ writeStructs [])))
        ++ moduleFooter c5Decoded
    ∧ (c5A.encode INDENT).data.getLast? = some '\x7d' :=
  c5_amended c5Decoded [] [] c5A c5B rfl rfl

/-! ## Claim C7 -/

/-- C7: when at least one of the 22 fixed generic-name candidates is absent
from the module's identifier pool, the random fallback is never consulted and
disassembly is a deterministic function of the module: two runs with any two
random draws produce identical output. -/
theorem c7_deterministic (m : CompiledModuleMut) (p : String)
    (hp : p ∈ GENERIC_CANDIDATES) (hu : m.identifiers.contains p = false)
    (r1 r2 : Nat) : disasm m r1 = disasm m r2 := by
  have hg : Generics.new m r1 = Generics.new m r2 := by
    unfold Generics.new
    have hs : (GENERIC_CANDIDATES.find? (fun q => !(m.identifiers.contains q))).isSome := by
      rw [List.find?_isSome]
      exact ⟨p, hp, by rw [hu]; rfl⟩
    cases hf : GENERIC_CANDIDATES.find? (fun q => !(m.identifiers.contains q)) with
    | none => rw [hf] at hs; simp at hs
    | some q => rfl
  unfold disasm decode
  rw [hg]

/-- C7 (witness): two runs with different random draws agree on `c2Module`,
whose pool leaves candidate `T` unused. -/
theorem c7_witness : disasm c2Module 0 = disasm c2Module 12345 :=
  c7_deterministic c2Module "T" (by decide) rfl 0 12345

/-! ## Claim C8 -/

/-- C8: in a module whose identifier pool contains `T` but not `G`, the
selected base is `G` — the first unused candidate in the fixed ordered list —
parameter 0 renders as the bare base, parameter i > 0 as base + `_` + i, and
a struct with two generic parameters renders them as `G` and `G_1`. -/
theorem c8_generic_names (m : CompiledModuleMut) (rng : Nat)
    (h1 : m.identifiers.contains "T" = true)
    (h2 : m.identifiers.contains "G" = false) :
    Generics.new m rng = ⟨GenericPfx.SimplePfx "G"⟩
    ∧ (∀ i k, ((Generics.new m rng).create_generic i k).name
        = "G" ++ (if i = 0 then "" else "_" ++ toString i))
    ∧ (∀ (d : StructDefinition) (handler : StructHandle) (sd : StructDef)
        (imp : ImportsMap),
        m.struct_handles.get? d.struct_handle = some handler →
        StructDef.new d m (Generics.new m rng) imp = some sd →
        handler.type_parameters.length = 2 →
        sd.type_params.map Generic.name = ["G", "G_1"]) := by
  have h1m : "T" ∈ m.identifiers := List.elem_iff.mp h1
  have h2m : "G" ∉ m.identifiers := contains_false_not_mem h2
  have hf : GENERIC_CANDIDATES.find? (fun q => !(m.identifiers.contains q))
      = some "G" := by
    simp [GENERIC_CANDIDATES, List.find?, h1m, h2m]
  have hg : Generics.new m rng = ⟨GenericPfx.SimplePfx "G"⟩ := by
    unfold Generics.new
    rw [hf]
  refine ⟨hg, ?_, ?_⟩
  · intro i k
    rw [hg]
    by_cases hi : i = 0 <;>
      simp [Generic.name, Generics.create_generic, Generics.encode, hi,
        String.append_empty, String.append_assoc]
  · intro d handler sd imp hh hsd hlen
    obtain ⟨-, -, htp⟩ := StructDef.new_eq hh hsd
    obtain ⟨k0, k1, hks⟩ := List.length_eq_two.mp hlen
    rw [htp, hks, hg]
    simp [List.enum, List.enumFrom, Generic.name, Generics.create_generic,
      Generics.encode]
    rfl

/-- C8 (witness): the naming rule evaluated on `c8Module`, whose pool is
`["M", "T"]`. -/
theorem c8_witness :
    ((Generics.new c8Module 0).create_generic 0 Kind.All).name = "G"
    ∧ ((Generics.new c8Module 0).create_generic 1 Kind.Resource).name = "G_1" :=
  ⟨((c8_generic_names c8Module 0 rfl rfl).2.1 0 Kind.All).trans (by decide),
   ((c8_generic_names c8Module 0 rfl rfl).2.1 1 Kind.Resource).trans (by decide)⟩

/-! ## Claim C9 -/

/-- The rendered text of one type signature: decode, then encode. -/
def rendered (m : CompiledModuleMut) (imports : ImportsMap)
    (type_params : List Generic) (t : SignatureToken) : Option String :=
  (extract_type_signature m imports type_params t).map FType.encode

/-- The import qualifier a resolved struct name is rendered with: the import
token followed by `::` when the resolver knows the (address, name) pair, and
nothing otherwise. -/
def qualifier (imports : ImportsMap) (address : AccountAddress)
    (module_name : String) : String :=
  match Imports.get_import imports address module_name with
  | some i => ImportName.encode i ++ "::"
  | none => ""

theorem intercalate_go_append (s acc1 acc2 : String) (l : List String) :
    String.intercalate.go (acc1 ++ acc2) s l
      = acc1 ++ String.intercalate.go acc2 s l := by
  induction l generalizing acc2 with
  | nil => simp [String.intercalate.go]
  | cons a as ih =>
    rw [String.intercalate.go, String.intercalate.go,
      String.append_assoc acc1 acc2 s, String.append_assoc acc1 (acc2 ++ s) a]
    exact ih (acc2 ++ s ++ a)

theorem intercalate_cons_cons (s a b : String) (l : List String) :
    String.intercalate s (a :: b :: l)
      = a ++ s ++ String.intercalate s (b :: l) := by
  show String.intercalate.go a s (b :: l) = a ++ s ++ String.intercalate.go b s l
  rw [String.intercalate.go]
  exact intercalate_go_append s (a ++ s) b l

theorem encodeList_eq_intercalate :
    (fts : List FType) →
      FType.encodeList fts = String.intercalate ", " (fts.map FType.encode)
  | [] => rfl
  | [_] => rfl
  | t :: t' :: ts => by
    rw [show FType.encodeList (t :: t' :: ts)
        = FType.encode t ++ ", " ++ FType.encodeList (t' :: ts) from rfl]
    rw [encodeList_eq_intercalate (t' :: ts)]
    simp only [List.map_cons]
    rw [intercalate_cons_cons]

theorem extract_type_list_length {m : CompiledModuleMut} {imports : ImportsMap}
    {type_params : List Generic} :
    ∀ {args : List SignatureToken} {fts : List FType},
      extract_type_list m imports type_params args = some fts →
      fts.length = args.length := by
  intro args
  induction args with
  | nil => intro fts h; rw [extract_type_list] at h; simp at h; simp [← h]
  | cons t ts ih =>
    intro fts h
    rw [extract_type_list] at h
    cases hx : extract_type_signature m imports type_params t with
    | none => rw [hx] at h; simp at h
    | some ft =>
      rw [hx] at h
      simp only at h
      cases hr : extract_type_list m imports type_params ts with
      | none => rw [hr] at h; simp at h
      | some fs =>
        rw [hr] at h
        simp only [Option.map_some', Option.some.injEq] at h
        subst h
        simp [ih hr]

/-- C9: the type-expression rendering rules: each primitive renders as its
fixed keyword; vector, reference and mutable-reference wrap the recursive
render with `vector<...>`, `&` and `&mut `; a struct reference resolves its
handle through the tables to an optionally import-qualified name; an
instantiation appends the comma-joined recursively rendered arguments inside
angle brackets only when the argument list is non-empty. -/
theorem c9_type_rendering (m : CompiledModuleMut) (imp : ImportsMap)
    (tps : List Generic) :
    (rendered m imp tps .U8 = some "u8"
     ∧ rendered m imp tps .U64 = some "u64"
     ∧ rendered m imp tps .U128 = some "u128"
     ∧ rendered m imp tps .Bool = some "bool"
     ∧ rendered m imp tps .Address = some "address"
     ∧ rendered m imp tps .Signer = some "signer")
    ∧ (∀ t, rendered m imp tps (.Vector t)
        = (rendered m imp tps t).map (fun s => "vector<" ++ s ++ ">"))
    ∧ (∀ t, rendered m imp tps (.Reference t)
        = (rendered m imp tps t).map (fun s => "&" ++ s))
    ∧ (∀ t, rendered m imp tps (.MutableReference t)
        = (rendered m imp tps t).map (fun s => "&mut " ++ s))
    ∧ (∀ (i : Nat) (h : StructHandle) (mh : ModuleHandle) (mn ad tn : String),
        m.struct_handles.get? i = some h →
        m.module_handles.get? h.module = some mh →
        m.identifiers.get? mh.name = some mn →
        m.address_identifiers.get? mh.address = some ad →
        m.identifiers.get? h.name = some tn →
        rendered m imp tps (.Struct i) = some (qualifier imp ad mn ++ tn)
        ∧ ∀ (args : List SignatureToken) (fts : List FType),
            extract_type_list m imp tps args = some fts →
            fts.isEmpty = args.isEmpty
            ∧ rendered m imp tps (.StructInstantiation i args)
              = some (qualifier imp ad mn ++ tn ++
                  (if args.isEmpty then ""
                   else "<" ++ String.intercalate ", " (fts.map FType.encode) ++ ">"))) := by
  refine ⟨⟨rfl, rfl, rfl, rfl, rfl, rfl⟩, ?_, ?_, ?_, ?_⟩
  · intro t
    unfold rendered
    rw [extract_type_signature]
    cases hx : extract_type_signature m imp tps t <;> simp [hx, FType.encode]
  · intro t
    unfold rendered
    rw [extract_type_signature]
    cases hx : extract_type_signature m imp tps t <;> simp [hx, FType.encode]
  · intro t
    unfold rendered
    rw [extract_type_signature]
    cases hx : extract_type_signature m imp tps t <;> simp [hx, FType.encode]
  · intro i h mh mn ad tn hsh hmh hmn had htn
    have hesn : extract_struct_name m i imp
        = some ⟨tn, Imports.get_import imp ad mn⟩ := by
      unfold extract_struct_name
      rw [hsh]
      simp only
      rw [hmh]
      simp only
      rw [hmn, had, htn]
    constructor
    · unfold rendered
      rw [extract_type_signature, hesn]
      simp only [Option.map_some', Option.some.injEq]
      rw [show FType.encode (.Struct ⟨tn, Imports.get_import imp ad mn⟩)
          = FullStructName.encode ⟨tn, Imports.get_import imp ad mn⟩ from rfl]
      unfold FullStructName.encode qualifier
      cases Imports.get_import imp ad mn <;> simp
    · intro args fts hargs
      have hempty : fts.isEmpty = args.isEmpty := by
        have hlen := extract_type_list_length hargs
        cases fts <;> cases args <;> simp_all
      refine ⟨hempty, ?_⟩
      unfold rendered
      rw [extract_type_signature, hesn]
      simp only
      rw [hargs]
      simp only [Option.map_some', Option.some.injEq]
      rw [show FType.encode (.StructInst ⟨tn, Imports.get_import imp ad mn⟩ fts)
          = FullStructName.encode ⟨tn, Imports.get_import imp ad mn⟩ ++
              (if fts.isEmpty then ""
               else "<" ++ FType.encodeList fts ++ ">") from rfl]
      rw [hempty, encodeList_eq_intercalate]
      unfold FullStructName.encode qualifier
      cases Imports.get_import imp ad mn <;> simp [String.append_assoc]

/-- C9 (witness): the rendering rules evaluated on `c9Module`, where struct
handle 1 resolves to struct `X` of module `Foo` at the imported address `01`. -/
theorem c9_witness :
    rendered c9Module c9Imports [] (.Vector .U8) = some "vector<u8>"
    ∧ rendered c9Module c9Imports [] (.Struct 1)
        = some (qualifier c9Imports "01" "Foo" ++ "X")
    ∧ rendered c9Module c9Imports [] (.StructInstantiation 1 [.U8, .Reference .U64])
        = some (qualifier c9Imports "01" "Foo" ++ "X" ++
            (if ([SignatureToken.U8, SignatureToken.Reference .U64] : List SignatureToken).isEmpty then ""
             else "<" ++ String.intercalate ", "
                (([FType.Primitive "u8", FType.Ref (.Primitive "u64")] : List FType).map FType.encode) ++ ">")) :=
  ⟨((c9_type_rendering c9Module c9Imports []).2.1 .U8).trans rfl,
   ((c9_type_rendering c9Module c9Imports []).2.2.2.2 1 ⟨1, 3, false, []⟩ ⟨1, 1⟩
      "Foo" "01" "X" rfl rfl rfl rfl rfl).1,
   (((c9_type_rendering c9Module c9Imports []).2.2.2.2 1 ⟨1, 3, false, []⟩ ⟨1, 1⟩
      "Foo" "01" "X" rfl rfl rfl rfl rfl).2
      [.U8, .Reference .U64] [.Primitive "u8", .Ref (.Primitive "u64")] rfl).2⟩

/-! ## Claim C1 -/

/-- A struct-handle index whose resolution runs off the end of some table:
either the struct-handle table itself, the owning module-handle table, the
identifier pool (module name or struct name), or the address pool. -/
def badStructIndex (m : CompiledModuleMut) (i : Nat) : Prop :=
  match m.struct_handles.get? i with
  | none => True
  | some h =>
    match m.module_handles.get? h.module with
    | none => True
    | some mh =>
      m.identifiers.get? mh.name = none
        ∨ m.address_identifiers.get? mh.address = none
        ∨ m.identifiers.get? h.name = none

/-- A type signature containing some index that is out of range for the
corresponding table, in a struct whose own parameter count is `ntp`. -/
inductive BadSig (m : CompiledModuleMut) (ntp : Nat) : SignatureToken → Prop where
  | vec {t : SignatureToken} : BadSig m ntp t → BadSig m ntp (.Vector t)
  | ref {t : SignatureToken} : BadSig m ntp t → BadSig m ntp (.Reference t)
  | refMut {t : SignatureToken} : BadSig m ntp t → BadSig m ntp (.MutableReference t)
  | structRef {i : Nat} : badStructIndex m i → BadSig m ntp (.Struct i)
  | instRef {i : Nat} {args : List SignatureToken} :
      badStructIndex m i → BadSig m ntp (.StructInstantiation i args)
  | instArg {i : Nat} {args : List SignatureToken} {t : SignatureToken} :
      t ∈ args → BadSig m ntp t → BadSig m ntp (.StructInstantiation i args)
  | tparam {i : Nat} : ntp ≤ i → BadSig m ntp (.TypeParameter i)

theorem extract_struct_name_eq_none {m : CompiledModuleMut} {i : Nat}
    (hb : badStructIndex m i) (imp : ImportsMap) :
    extract_struct_name m i imp = none := by
  unfold badStructIndex at hb
  unfold extract_struct_name
  cases hsh : m.struct_handles.get? i with
  | none => rfl
  | some h =>
    rw [hsh] at hb
    simp only at hb ⊢
    cases hmh : m.module_handles.get? h.module with
    | none => rfl
    | some mh =>
      rw [hmh] at hb
      simp only at hb ⊢
      rcases hb with hb | hb | hb
      · rw [hb]
      · cases hmn : m.identifiers.get? mh.name with
        | none => rfl
        | some mn => rw [hb]
      · cases hmn : m.identifiers.get? mh.name with
        | none => rfl
        | some mn =>
          cases had : m.address_identifiers.get? mh.address with
          | none => rfl
          | some ad => rw [hb]

theorem extract_type_list_none_of_mem {m : CompiledModuleMut}
    {imp : ImportsMap} {tps : List Generic} {t : SignatureToken} :
    ∀ {args : List SignatureToken}, t ∈ args →
      extract_type_signature m imp tps t = none →
      extract_type_list m imp tps args = none := by
  intro args
  induction args with
  | nil => intro hmem; cases hmem
  | cons y ys ih =>
    intro hmem ht
    rw [extract_type_list]
    rcases List.mem_cons.mp hmem with rfl | hmem2
    · rw [ht]
    · cases hy : extract_type_signature m imp tps y with
      | none => rfl
      | some fy => simp only; rw [ih hmem2 ht]; rfl

theorem badsig_extract_none {m : CompiledModuleMut} {ntp : Nat}
    {t : SignatureToken} (hb : BadSig m ntp t) (imp : ImportsMap)
    (tps : List Generic) (hlen : tps.length = ntp) :
    extract_type_signature m imp tps t = none := by
  induction hb with
  | vec hb ih => rw [extract_type_signature, ih]; rfl
  | ref hb ih => rw [extract_type_signature, ih]; rfl
  | refMut hb ih => rw [extract_type_signature, ih]; rfl
  | structRef hbi => rw [extract_type_signature, extract_struct_name_eq_none hbi]; rfl
  | instRef hbi => rw [extract_type_signature, extract_struct_name_eq_none hbi]
  | @instArg i args t' hmem hb ih =>
    rw [extract_type_signature]
    cases hesn : extract_struct_name m i imp with
    | none => rfl
    | some n =>
      simp only
      rw [extract_type_list_none_of_mem hmem ih]
      rfl
  | @tparam i hle =>
    rw [extract_type_signature]
    rw [List.get?_eq_none.mpr (by omega : tps.length ≤ i)]
    rfl

/-- C1 (counterexample): `c1Module` has a struct-definition field whose type
signature refers to struct-handle index 99 while the struct-handle table has
one entry; disassembly does not return any error value — the code performs an
unchecked slice index, so it panics, modelled here as `none` (the pipeline
has no `StructuralIndexError`-like value at all in its result). -/
theorem c1_counterexample : disasm c1Module 0 = none := rfl

/-- C1 (amended): for every module and struct-definition field whose type
signature contains an out-of-range struct-handle, module-handle, identifier,
address, or generic-parameter index, disassembly panics — modelled as
producing no result — rather than returning a structural-error value; in
particular it produces no output text. -/
theorem c1_amended (m : CompiledModuleMut) (rng : Nat) (d : StructDefinition)
    (fl : List FieldDefinition) (fd : FieldDefinition) (handler : StructHandle)
    (hd : d ∈ m.struct_defs)
    (hfl : d.field_information = .Declared fl)
    (hfd : fd ∈ fl)
    (hh : m.struct_handles.get? d.struct_handle = some handler)
    (hbad : BadSig m handler.type_parameters.length fd.signature) :
    disasm m rng = none := by
  have hnew : ∀ (g : Generics) (imp : ImportsMap), StructDef.new d m g imp = none := by
    intro g imp
    unfold StructDef.new
    rw [hh]
    simp only
    cases hn : m.identifiers.get? handler.name with
    | none => rfl
    | some name =>
      simp only
      have hext : extract_fields m d.field_information imp
          (handler.type_parameters.enum.map (fun ik => g.create_generic ik.1 ik.2))
          = none := by
        rw [hfl]
        unfold extract_fields
        apply mapOpt_eq_none_of_mem hfd
        rw [badsig_extract_none hbad imp _ (by simp [List.enum_length])]
        cases m.identifiers.get? fd.name <;> rfl
      rw [hext]
      rfl
  unfold disasm decode
  cases hsi : self_id m with
  | none => rfl
  | some id =>
    simp only
    cases himp : Imports.new m with
    | none => rfl
    | some imp =>
      simp only
      unfold ModuleD.new
      rw [mapOpt_eq_none_of_mem hd (hnew _ imp)]
      rfl

/-- C1 (witness): the amended panic behaviour evaluated on
`c1WitnessModule`, whose only field references generic parameter 5 of a
struct with no generic parameters. -/
theorem c1_amended_witness : disasm c1WitnessModule 0 = none :=
  c1_amended c1WitnessModule 0 ⟨0, .Declared [⟨2, .TypeParameter 5⟩]⟩
    [⟨2, .TypeParameter 5⟩] ⟨2, .TypeParameter 5⟩ ⟨0, 1, false, []⟩
    (List.mem_singleton.mpr rfl) rfl (List.mem_singleton.mpr rfl) rfl
    (BadSig.tparam (by decide))

/-! ## Claims C6 and C10: the import-table algorithm -/

/-- Append an address to a first-occurrence list when it is new. -/
def addDistinct (l : List AccountAddress) (a : AccountAddress) :
    List AccountAddress :=
  if a ∈ l then l else l ++ [a]

/-- The distinct elements of a list in first-occurrence order. -/
def distincts (l : List AccountAddress) : List AccountAddress :=
  l.foldl addDistinct []

/-- The addresses paired with name `n` in a resolved pair list, in order. -/
def addrsOf (P : List (String × AccountAddress)) (n : String) :
    List AccountAddress :=
  (P.filter (fun p => p.1 == n)).map Prod.snd

/-- The import token the algorithm gives the `j`-th distinct address of one
name group: the bare name for the first, a numbered alias afterwards. -/
def tokenFor (n : String) (j : Nat) : ImportName :=
  if j = 0 then ImportName.Name n else ImportName.Alias n j

/-- The inner address-to-token table of group `n` over the distinct address
list `D`. -/
def tokensOf (n : String) (D : List AccountAddress) :
    List (AccountAddress × ImportName) :=
  D.enum.map (fun ja => (ja.2, tokenFor n ja.1))

/-- The inner table with positions shifted by `i`, for induction. -/
def tokensFrom (n : String) (i : Nat) (D : List AccountAddress) :
    List (AccountAddress × ImportName) :=
  (D.enumFrom i).map (fun ja => (ja.2, tokenFor n ja.1))

/-- Building the import table from the resolved pair list alone. -/
def buildImports (P : List (String × AccountAddress)) : ImportsMap :=
  P.foldl Imports.insertPair []

theorem tokensOf_eq_from (n : String) (D : List AccountAddress) :
    tokensOf n D = tokensFrom n 0 D := rfl

theorem tokensOf_length (n : String) (D : List AccountAddress) :
    (tokensOf n D).length = D.length := by
  simp [tokensOf, List.enum_length]

theorem lookup_updAssoc (k k' : String) (v : List (AccountAddress × ImportName)) :
    ∀ (l : ImportsMap),
      (updAssoc k v l).lookup k' = if k' = k then some v else l.lookup k' := by
  intro l
  induction l with
  | nil =>
    by_cases h : k' = k
    · subst h; simp [updAssoc, List.lookup]
    · have hb : (k' == k) = false := beq_eq_false_iff_ne.mpr h
      simp [updAssoc, List.lookup, hb, h]
  | cons e rest ih =>
    obtain ⟨k0, v0⟩ := e
    by_cases h0 : k0 = k
    · subst h0
      simp only [updAssoc, if_pos rfl]
      by_cases h1 : k' = k0
      · subst h1; simp [List.lookup]
      · have hb : (k' == k0) = false := beq_eq_false_iff_ne.mpr h1
        simp [List.lookup, hb, h1]
    · simp only [updAssoc, if_neg h0]
      by_cases h1 : k' = k0
      · subst h1
        have hk : ¬(k' = k) := h0
        simp [List.lookup, hk]
      · have hb : (k' == k0) = false := beq_eq_false_iff_ne.mpr h1
        simp [List.lookup, hb, h1, ih]

theorem addrsOf_append (P : List (String × AccountAddress))
    (p : String × AccountAddress) (n : String) :
    addrsOf (P ++ [p]) n
      = addrsOf P n ++ (if p.1 == n then [p.2] else []) := by
  simp only [addrsOf, List.filter_append]
  cases h : p.1 == n <;> simp [List.filter, h]

theorem distincts_append (l : List AccountAddress) (a : AccountAddress) :
    distincts (l ++ [a]) = addDistinct (distincts l) a := by
  simp [distincts, List.foldl_append]

theorem distincts_nodup (l : List AccountAddress) : (distincts l).Nodup := by
  suffices h : ∀ (l acc : List AccountAddress), acc.Nodup →
      (l.foldl addDistinct acc).Nodup from h l [] List.nodup_nil
  intro l
  induction l with
  | nil => intro acc h; exact h
  | cons a as ih =>
    intro acc hacc
    apply ih
    unfold addDistinct
    by_cases hm : a ∈ acc
    · simpa [hm] using hacc
    · simp [hm, List.nodup_append, hacc]

theorem tokensFrom_cons (n : String) (i : Nat) (d : AccountAddress)
    (ds : List AccountAddress) :
    tokensFrom n i (d :: ds) = (d, tokenFor n i) :: tokensFrom n (i + 1) ds := by
  simp [tokensFrom, List.enumFrom]

theorem tokensFrom_lookup_none (n : String) (a : AccountAddress) :
    ∀ (D : List AccountAddress) (i : Nat),
      ((tokensFrom n i D).lookup a = none) ↔ a ∉ D := by
  intro D
  induction D with
  | nil => intro i; simp [tokensFrom, List.enumFrom, List.lookup]
  | cons d ds ih =>
    intro i
    rw [tokensFrom_cons]
    by_cases h : a = d
    · subst h
      simp [List.lookup]
    · have hb : (a == d) = false := beq_eq_false_iff_ne.mpr h
      simp only [List.lookup, hb]
      rw [ih (i + 1)]
      simp [h]

theorem tokensFrom_lookup_get (n : String) :
    ∀ (D : List AccountAddress) (i j : Nat) (a : AccountAddress),
      D.Nodup → D.get? j = some a →
      (tokensFrom n i D).lookup a = some (tokenFor n (i + j)) := by
  intro D
  induction D with
  | nil => intro i j a _ hj; simp at hj
  | cons d ds ih =>
    intro i j a hnd hj
    cases j with
    | zero =>
      simp only [List.get?_cons_zero, Option.some.injEq] at hj
      subst hj
      rw [tokensFrom_cons]
      simp [List.lookup]
    | succ j' =>
      simp only [List.get?_cons_succ] at hj
      have hmem : a ∈ ds := List.get?_mem hj
      have hne : a ≠ d := by
        intro he
        exact (List.nodup_cons.mp hnd).1 (he ▸ hmem)
      have hrec := ih (i + 1) j' a (List.nodup_cons.mp hnd).2 hj
      rw [show i + 1 + j' = i + (j' + 1) from by omega] at hrec
      rw [tokensFrom_cons]
      have hb : (a == d) = false := beq_eq_false_iff_ne.mpr hne
      simp only [List.lookup, hb]
      exact hrec

theorem get_import_eq (imp : ImportsMap) (a : AccountAddress) (n : String) :
    Imports.get_import imp a n = ((imp.lookup n).getD []).lookup a := by
  unfold Imports.get_import
  cases imp.lookup n <;> simp [List.lookup]

theorem tokensOf_append_one (n : String) (D : List AccountAddress)
    (a : AccountAddress) :
    tokensOf n (D ++ [a]) = tokensOf n D ++ [(a, tokenFor n D.length)] := by
  simp [tokensOf, List.enum_append, List.enumFrom]

/-- The import table built from resolved pairs assigns group `n` the
position-indexed tokens of its distinct addresses in first-occurrence order. -/
theorem buildImports_lookup :
    ∀ (P : List (String × AccountAddress)) (n : String),
      ((buildImports P).lookup n).getD []
        = tokensOf n (distincts (addrsOf P n)) := by
  intro P
  induction P using List.reverseRecOn with
  | nil => intro n; rfl
  | append_singleton P p ih =>
    intro n
    have hb : buildImports (P ++ [p])
        = Imports.insertPair (buildImports P) p := by
      simp [buildImports, List.foldl_append]
    rw [hb, addrsOf_append]
    by_cases hn : p.1 = n
    case neg =>
      have hfilter : (if p.1 == n then [p.2] else []) = ([] : List AccountAddress) := by
        simp [hn]
      rw [hfilter, List.append_nil]
      unfold Imports.insertPair
      split
      · exact ih n
      · rw [lookup_updAssoc]
        rw [if_neg (fun h => hn h.symm)]
        exact ih n
    case pos =>
      subst hn
      have hfilter : (if p.1 == p.1 then [p.2] else []) = [p.2] := by simp
      rw [hfilter, distincts_append]
      unfold Imports.insertPair
      rw [ih p.1]
      by_cases hmem : p.2 ∈ distincts (addrsOf P p.1)
      · have hlk : (tokensOf p.1 (distincts (addrsOf P p.1))).lookup p.2 ≠ none := by
          rw [tokensOf_eq_from]
          intro hcontra
          rw [tokensFrom_lookup_none] at hcontra
          exact hcontra hmem
        cases hcase : (tokensOf p.1 (distincts (addrsOf P p.1))).lookup p.2 with
        | none => exact absurd hcase hlk
        | some tok =>
          simp only
          rw [ih p.1]
          unfold addDistinct
          rw [if_pos hmem]
      · have hlk : (tokensOf p.1 (distincts (addrsOf P p.1))).lookup p.2 = none := by
          rw [tokensOf_eq_from, tokensFrom_lookup_none]
          exact hmem
        rw [hlk]
        simp only
        rw [lookup_updAssoc, if_pos rfl]
        simp only [Option.getD_some]
        unfold addDistinct
        rw [if_neg hmem, tokensOf_append_one, tokensOf_length]
        rfl

theorem foldl_step_none (m : CompiledModuleMut) :
    ∀ (l : List (Nat × ModuleHandle)),
      l.foldl (Imports.step m) none = none := by
  intro l
  induction l with
  | nil => rfl
  | cons x xs ih => simpa [List.foldl_cons, Imports.step] using ih

theorem foldl_step_eq (m : CompiledModuleMut) :
    ∀ (l : List (Nat × ModuleHandle)) (imp : ImportsMap),
      l.foldl (Imports.step m) (some imp)
        = (Imports.pairsAux m l).map
            (fun P => P.foldl Imports.insertPair imp) := by
  intro l
  induction l with
  | nil => intro imp; rfl
  | cons x xs ih =>
    intro imp
    obtain ⟨i, hdl⟩ := x
    rw [List.foldl_cons, Imports.pairsAux]
    by_cases hs : m.self_module_handle_idx = i
    · rw [show Imports.step m (some imp) (i, hdl) = some imp from by
        simp [Imports.step, hs]]
      rw [if_pos hs, ih]
    · rw [show Imports.step m (some imp) (i, hdl)
          = (match resolveHandle m hdl with
             | none => none
             | some p => some (Imports.insertPair imp p)) from by
        simp [Imports.step, hs]]
      rw [if_neg hs]
      cases hr : resolveHandle m hdl with
      | none => simp [foldl_step_none]
      | some p =>
        simp only
        rw [ih (Imports.insertPair imp p)]
        cases hpa : Imports.pairsAux m xs with
        | none => rfl
        | some P => simp [List.foldl_cons]

theorem importsNew_eq_pairs (m : CompiledModuleMut) :
    Imports.new m = (Imports.pairs m).map buildImports := by
  unfold Imports.new Imports.pairs buildImports
  exact foldl_step_eq m m.module_handles.enum []

/-- C6: `Imports::new` iterates the handle table in order, skips the self
handle, groups by module-name string, and assigns the `j`-th distinct address
of a group the bare name for `j = 0` and the name with integer suffix `j`
(starting at 1) otherwise; the token's rendering is the name immediately
followed by the suffix. -/
theorem c6_import_tokens (m : CompiledModuleMut)
    (P : List (String × AccountAddress)) (imp : ImportsMap) (n : String)
    (a : AccountAddress) (j : Nat)
    (hP : Imports.pairs m = some P)
    (himp : Imports.new m = some imp)
    (hj : (distincts (addrsOf P n)).get? j = some a) :
    Imports.get_import imp a n = some (tokenFor n j)
    ∧ ImportName.encode (tokenFor n j)
        = n ++ (if j = 0 then "" else toString j) := by
  have heq : Imports.new m = some (buildImports P) := by
    rw [importsNew_eq_pairs, hP]
    rfl
  rw [himp] at heq
  injection heq with heq
  subst heq
  constructor
  · rw [get_import_eq, buildImports_lookup P n]
    have hrec := tokensFrom_lookup_get n (distincts (addrsOf P n)) 0 j a
      (distincts_nodup _) hj
    simpa [tokensOf_eq_from] using hrec
  · unfold tokenFor ImportName.encode
    by_cases hjj : j = 0
    · simp [hjj, String.append_empty]
    · simp [hjj]

/-- C6 (witness): in `c6Module`, module `Foo` is exposed at two distinct
addresses; the second distinct address receives the alias token, which
renders as `Foo1`. -/
theorem c6_witness :
    Imports.get_import c6Imports "02" "Foo" = some (tokenFor "Foo" 1)
    ∧ ImportName.encode (tokenFor "Foo" 1) = "Foo1" :=
  ⟨(c6_import_tokens c6Module [("Foo", "01"), ("Foo", "02")] c6Imports
      "Foo" "02" 1 rfl rfl rfl).1,
   (c6_import_tokens c6Module [("Foo", "01"), ("Foo", "02")] c6Imports
      "Foo" "02" 1 rfl rfl rfl).2.trans (by decide)⟩

theorem lookup_append_some {l l' : List (AccountAddress × ImportName)}
    {a : AccountAddress} {t : ImportName} (h : l.lookup a = some t) :
    (l ++ l').lookup a = some t := by
  induction l with
  | nil => simp [List.lookup] at h
  | cons e rest ih =>
    obtain ⟨k, v⟩ := e
    rw [List.cons_append]
    rw [List.lookup] at h ⊢
    cases hak : a == k with
    | true => rw [hak] at h; exact h
    | false => rw [hak] at h; exact ih h

theorem lookup_append_self {l : List (AccountAddress × ImportName)}
    {a : AccountAddress} {t : ImportName} (h : l.lookup a = none) :
    (l ++ [(a, t)]).lookup a = some t := by
  induction l with
  | nil => simp [List.lookup]
  | cons e rest ih =>
    obtain ⟨k, v⟩ := e
    rw [List.cons_append]
    rw [List.lookup] at h ⊢
    cases hak : a == k with
    | true => rw [hak] at h; cases h
    | false => rw [hak] at h; exact ih h

theorem insertPair_lookup_ne {imp : ImportsMap} {p : String × AccountAddress}
    {n : String} (hn : n ≠ p.1) :
    (Imports.insertPair imp p).lookup n = imp.lookup n := by
  unfold Imports.insertPair
  split
  · rfl
  · rw [lookup_updAssoc, if_neg hn]

theorem insertPair_preserves {imp : ImportsMap} {p : String × AccountAddress}
    {n : String} {a : AccountAddress} {t : ImportName}
    (h : Imports.get_import imp a n = some t) :
    Imports.get_import (Imports.insertPair imp p) a n = some t := by
  rw [get_import_eq] at h ⊢
  by_cases hn : n = p.1
  · subst hn
    unfold Imports.insertPair
    split
    · exact h
    · rw [lookup_updAssoc, if_pos rfl]
      simp only [Option.getD_some]
      exact lookup_append_some h
  · rw [insertPair_lookup_ne hn]
    exact h

theorem insertPair_registers (imp : ImportsMap) (p : String × AccountAddress) :
    (Imports.get_import (Imports.insertPair imp p) p.2 p.1).isSome := by
  rw [get_import_eq]
  unfold Imports.insertPair
  split
  · next tok htok => rw [htok]; rfl
  · next hnone =>
    rw [lookup_updAssoc, if_pos rfl]
    simp only [Option.getD_some]
    rw [lookup_append_self hnone]
    rfl

theorem foldl_insert_registers (p0 : String × AccountAddress) :
    ∀ (P : List (String × AccountAddress)) (imp : ImportsMap),
      (p0 ∈ P ∨ (Imports.get_import imp p0.2 p0.1).isSome) →
      (Imports.get_import (P.foldl Imports.insertPair imp) p0.2 p0.1).isSome := by
  intro P
  induction P with
  | nil =>
    intro imp h
    rcases h with h | h
    · cases h
    · exact h
  | cons q Q ih =>
    intro imp h
    rw [List.foldl_cons]
    rcases h with h | h
    · rcases List.mem_cons.mp h with rfl | hmem
      · exact ih _ (Or.inr (insertPair_registers imp p0))
      · exact ih _ (Or.inl hmem)
    · obtain ⟨t, ht⟩ := Option.isSome_iff_exists.mp h
      exact ih _ (Or.inr (by rw [insertPair_preserves ht]; rfl))

theorem insertPair_idem {imp : ImportsMap} {p : String × AccountAddress}
    (h : (Imports.get_import imp p.2 p.1).isSome) :
    Imports.insertPair imp p = imp := by
  rw [get_import_eq] at h
  unfold Imports.insertPair
  split
  · rfl
  · next hnone => rw [hnone] at h; cases h

/-- C10: duplicate (module-name, address) pairs are idempotent: a repeated
occurrence of a pair already registered leaves the import table exactly as if
the duplicate handle were absent, so duplicates never consume or skip an
alias number. -/
theorem c10_duplicate_idempotent (m : CompiledModuleMut)
    (P1 P2 : List (String × AccountAddress)) (n : String) (a : AccountAddress)
    (hP : Imports.pairs m = some (P1 ++ (n, a) :: P2))
    (hmem : (n, a) ∈ P1) :
    Imports.new m = some (buildImports (P1 ++ P2)) := by
  rw [importsNew_eq_pairs, hP]
  simp only [Option.map_some', Option.some.injEq]
  unfold buildImports
  rw [List.foldl_append, List.foldl_append, List.foldl_cons]
  congr 1
  apply insertPair_idem
  exact foldl_insert_registers (n, a) P1 [] (Or.inl hmem)

/-- C10 (witness): `c10Module` repeats the pair (`Foo`, address `01`) in two
non-self handles; its import table equals the one built from a single
occurrence. -/
theorem c10_witness :
    Imports.new c10Module = some (buildImports [("Foo", "01")]) :=
  c10_duplicate_idempotent c10Module [("Foo", "01")] [] "Foo" "01" rfl
    (List.mem_singleton.mpr rfl)

end Dvm
